import Mathlib

set_option maxRecDepth 8192

/-!
Verification of the Yilian CSV aggregation scripts
(`scripts/process_yilian.py`, the monthly variant, and
`scripts/yilian_monthly_webhook.py`, the annual/full variant).

The scripts are embedded shallowly:

* Text is modelled as `Str := List Char` (Python/pandas strings are
  sequences of code points; all string primitives used by the scripts —
  strip, lower, upper, endswith, substring search — are re-implemented
  structurally so that every definition evaluates inside the kernel).
* A pandas `DataFrame` as read from one CSV file is a `Frame`: a header
  list plus row-major cells, where a cell is `Option Str` (`none` is
  pandas' missing value `NaN`).
* A timestamp is a `DT` record; `none : Option DT` is pandas' `NaT`.
  Timestamp comparison is through the injective monotone key `dtKey`,
  which agrees with chronological order on valid calendar dates.
* The pandas automatic date parser (`pd.to_datetime(..., errors="coerce")`)
  and the per-format parser (`pd.to_datetime(..., format=f)`) are external
  collaborators; pipeline functions take them as parameters
  (`auto : Str → Option DT`, `pfmt : Str → Str → Option DT`), with `none`
  modelling a cell that fails to parse.  Concrete instantiations used in
  witnesses implement the unambiguous ISO forms, on which pandas' parsers
  agree with them.
-/

/-! ### Strings as character lists -/

abbrev Str := List Char

def lowerStr (s : Str) : Str := s.map Char.toLower

def upperStr (s : Str) : Str := s.map Char.toUpper

/-- Removal of every whitespace character, embedding
`str(c).replace("\n","").replace("\r","")` followed by
`re.sub(r"\s+", "", ...)` from `normalize_headers`. -/
def stripWS (s : Str) : Str := s.filter (fun c => !c.isWhitespace)

/-- Python `str.strip()`: drop leading and trailing whitespace. -/
def trimStr (s : Str) : Str :=
  ((s.dropWhile Char.isWhitespace).reverse.dropWhile Char.isWhitespace).reverse

/-- Python `str.endswith(suffix)`. -/
def endsWithStr (s suf : Str) : Bool := suf.isSuffixOf s

/-- Python `str.startswith(pre)`. -/
def startsWithStr (s pre : Str) : Bool := pre.isPrefixOf s

/-- Substring occurrence test, embedding `re.search` on a literal pattern
(and Python's `in` on strings). -/
def containsStr (pat : Str) : Str → Bool
  | [] => decide (pat = [])
  | c :: rest => pat.isPrefixOf (c :: rest) || containsStr pat rest

/-- Decimal digits of a natural number, via the kernel-evaluable `Nat.repr`. -/
def natToStr (n : Nat) : Str := (Nat.repr n).data

/-- Zero-padding to width `w`, as `strftime` field formatting does. -/
def natPad (w n : Nat) : Str := List.replicate (w - (natToStr n).length) '0' ++ natToStr n

def charDigit? (c : Char) : Option Nat :=
  if 48 ≤ c.toNat && c.toNat ≤ 57 then some (c.toNat - 48) else none

def strToNatGo : Str → Nat → Option Nat
  | [], acc => some acc
  | c :: rest, acc =>
    match charDigit? c with
    | some d => strToNatGo rest (acc * 10 + d)
    | none => none

/-- Python `int(s)` restricted to plain digit strings (the only shapes the
scripts feed it: a 4-digit year, or a non-numeric token that raises and is
caught). `none` models the raising case. -/
def strToNat? : Str → Option Nat
  | [] => none
  | c :: rest => strToNatGo (c :: rest) 0

/-- Code-point lexicographic comparison of strings, the order Python uses
to compare `str` values (and hence the order pandas sorts object columns by). -/
def strLeB : Str → Str → Bool
  | [], _ => true
  | _ :: _, [] => false
  | a :: as, b :: bs =>
    if a.toNat < b.toNat then true
    else if b.toNat < a.toNat then false
    else strLeB as bs

def strLtB (a b : Str) : Bool := strLeB a b && !(a == b)

/-! ### Timestamps -/

/-- A point in time as the scripts see one (second precision; the CSV data
never carries sub-second fields). -/
structure DT where
  year : Nat
  month : Nat
  day : Nat
  hour : Nat
  minute : Nat
  second : Nat
deriving DecidableEq, Repr

/-- Injective monotone key: chronological comparison of valid timestamps is
comparison of keys (months `≤ 12 < 13`, days `< 32`, hours `< 24`,
minutes and seconds `< 60`). -/
def dtKey (t : DT) : Nat :=
  ((((t.year * 13 + t.month) * 32 + t.day) * 24 + t.hour) * 60 + t.minute) * 60 + t.second

def isLeap (y : Nat) : Bool := (y % 4 == 0 && y % 100 != 0) || y % 400 == 0

def daysInMonth (y m : Nat) : Nat :=
  if m == 2 then (if isLeap y then 29 else 28)
  else if m == 4 || m == 6 || m == 9 || m == 11 then 30
  else 31

/-- A structurally well-formed calendar timestamp. -/
def ValidDT (t : DT) : Prop :=
  1 ≤ t.year ∧ 1 ≤ t.month ∧ t.month ≤ 12 ∧ 1 ≤ t.day ∧ t.day ≤ daysInMonth t.year t.month ∧
    t.hour ≤ 23 ∧ t.minute ≤ 59 ∧ t.second ≤ 59

instance (t : DT) : Decidable (ValidDT t) := by
  unfold ValidDT
  infer_instance

/-- `datetime - timedelta(seconds=1)`: the effect of subtracting one second
from a Python `datetime`, written out with the calendar carries. -/
def subOneSecond (t : DT) : DT :=
  if t.second > 0 then { t with second := t.second - 1 }
  else if t.minute > 0 then { t with minute := t.minute - 1, second := 59 }
  else if t.hour > 0 then { t with hour := t.hour - 1, minute := 59, second := 59 }
  else if t.day > 1 then { t with day := t.day - 1, hour := 23, minute := 59, second := 59 }
  else if t.month > 1 then ⟨t.year, t.month - 1, daysInMonth t.year (t.month - 1), 23, 59, 59⟩
  else ⟨t.year - 1, 12, 31, 23, 59, 59⟩

/-- `prev_month_range` from `process_yilian.py`: replace down to the start
of the current month, subtract one second, replace down to the start of
that (previous) month. -/
def prev_month_range (now_local : DT) : DT × DT :=
  let this_month_start : DT := { now_local with day := 1, hour := 0, minute := 0, second := 0 }
  let prev_month_end := subOneSecond this_month_start
  let prev_month_start : DT := { prev_month_end with day := 1, hour := 0, minute := 0, second := 0 }
  (prev_month_start, prev_month_end)

/-- `prev_start.strftime("%Y-%m")`, the scope label of the monthly script. -/
def month_label (now_local : DT) : Str :=
  natPad 4 (prev_month_range now_local).1.year ++ "-".data ++ natPad 2 (prev_month_range now_local).1.month

/-- The year/month pair of the calendar month preceding the month of `t`
(specification-side helper used to state what the window should be). -/
def prevYM (t : DT) : Nat × Nat :=
  if t.month = 1 then (t.year - 1, 12) else (t.year, t.month - 1)

/-! ### Frames and canonical events -/

/-- One cell as `pd.read_csv` delivers it: `none` is pandas `NaN`. -/
abbrev Cell := Option Str

/-- One parsed CSV file: header names plus row-major cells. -/
structure Frame where
  headers : List Str
  rows : List (List Cell)
deriving DecidableEq, Repr

/-- Position of a column name in a header list (first occurrence, the
column `df[name]` denotes). -/
def colIdx (name : Str) : List Str → Option Nat
  | [] => none
  | h :: t => if h = name then some 0 else (colIdx name t).map (fun i => i + 1)

/-- `df[name]` as a list of cells, `none` when the column is absent. -/
def getCol (f : Frame) (name : Str) : Option (List Cell) :=
  (colIdx name f.headers).map (fun i => f.rows.map (fun r => r.getD i none))

/-- `CANON_COLS` from `yilian_monthly_webhook.py`: canonical column name to
recognized alias spellings. -/
def CANON_COLS : List (Str × List Str) :=
  [("项目名".data, ["项目名".data, "項目名".data, "项目".data, "项目名称".data, "項目名稱".data]),
   ("基于哪条manifest分支".data,
     ["基于哪条manifest分支".data, "基于哪条manifest\n分支".data,
      "manifest分支".data, "分支".data, "所用分支".data]),
   ("申请时间".data, ["申请时间".data, "申请\n时间".data, "申請時間".data, "时间".data, "时间戳".data])]

/-- Alias resolution of one already-whitespace-stripped header: the standard
name whose alias list contains it, else the header itself. -/
def canonName (h : Str) : Str :=
  match CANON_COLS.find? (fun p => decide (h ∈ p.2)) with
  | some p => p.1
  | none => h

/-- `normalize_headers`: strip whitespace from every header, then map
recognized aliases to the canonical names. -/
def normalize_headers (f : Frame) : Frame :=
  { headers := f.headers.map (fun c => canonName (stripWS c)), rows := f.rows }

/-- The keyword test of `pick_date_series`:
`re.search(r"时间|date|日期|time", c, re.I)`. -/
def isDateLike (c : Str) : Bool :=
  containsStr "时间".data (lowerStr c) || containsStr "date".data (lowerStr c) ||
    containsStr "日期".data (lowerStr c) || containsStr "time".data (lowerStr c)

/-- `pick_date_series`: the canonical timestamp column if present, else the
first column whose header looks date-like, else nothing. -/
def pick_date_series (f : Frame) : Option (List Cell) :=
  match getCol f "申请时间".data with
  | some col => some col
  | none =>
    match f.headers.find? isDateLike with
    | some c => getCol f c
    | none => none

/-- `DATE_FORMATS_HINT` from `yilian_monthly_webhook.py`. -/
def DATE_FORMATS_HINT : List Str :=
  ["%Y-%m-%d".data, "%Y/%m/%d".data, "%Y.%m.%d".data,
   "%Y-%m-%d %H:%M:%S".data, "%Y/%m/%d %H:%M:%S".data,
   "%Y年%m月%d日".data, "%Y年%m月%d日 %H:%M:%S".data]

/-- First non-`none` entry, embedding the `fillna` cascade of
`to_datetime_safe` (the first format that parses a cell wins). -/
def firstSome : List (Option DT) → Option DT
  | [] => none
  | some d :: _ => some d
  | none :: rest => firstSome rest

/-- `to_datetime_safe` at the level of one cell: the automatic parser first,
then each format of `DATE_FORMATS_HINT` in order; a missing cell is `NaT`
and a cell every parser rejects stays `NaT`. -/
def to_datetime_safe (auto : Str → Option DT) (pfmt : Str → Str → Option DT) (cell : Cell) :
    Option DT :=
  match cell with
  | none => none
  | some s =>
    match auto s with
    | some d => some d
    | none => firstSome (DATE_FORMATS_HINT.map (fun f => pfmt f s))

/-- A Canonical Event: the three retained columns of one row after
`unify_dataframe`. -/
structure Row where
  project : Option Str
  branch : Option Str
  ts : Option DT
deriving DecidableEq, Repr

/-- `unify_dataframe`: guarantee the three canonical columns, filling an
absent project/branch column with the missing sentinel for every row,
locating a timestamp column via `pick_date_series` and parsing it with
`to_datetime_safe` (all-`NaT` when no column qualifies), and keeping
exactly the three columns without adding or removing rows. -/
def unify_dataframe (auto : Str → Option DT) (pfmt : Str → Str → Option DT) (f : Frame) :
    List Row :=
  let n := f.rows.length
  let proj := (getCol f "项目名".data).getD (List.replicate n none)
  let branch := (getCol f "基于哪条manifest分支".data).getD (List.replicate n none)
  let ts : List (Option DT) :=
    match pick_date_series f with
    | none => List.replicate n none
    | some col => col.map (to_datetime_safe auto pfmt)
  (List.range n).map (fun i =>
    { project := proj.getD i none, branch := branch.getD i none, ts := ts.getD i none })

/-! ### Merger / deduplicator -/

def rowKey (r : Row) : Option Str × Option Str × Option DT := (r.project, r.branch, r.ts)

def dedupGo (seen : List (Option Str × Option Str × Option DT)) : List Row → List Row
  | [] => []
  | r :: rs => if rowKey r ∈ seen then dedupGo seen rs else r :: dedupGo (rowKey r :: seen) rs

/-- `deduplicate`: `drop_duplicates` on the (project, branch, timestamp)
triple, keeping the first occurrence (pandas treats `NaN` keys as equal,
as `Option` equality does here). -/
def deduplicate (df : List Row) : List Row := dedupGo [] df

/-! ### Scope filter -/

/-- `filter_scope`: `"ALL"` (case-insensitively) or an unparsable year pass
everything through with label `all`; a year keeps the rows whose timestamp
falls in that calendar year (`NaT` never matches) with the year as label. -/
def filter_scope (df : List Row) (scope : Str) : List Row × Str :=
  if upperStr scope = "ALL".data then (df, "all".data)
  else
    match strToNat? scope with
    | none => (df, "all".data)
    | some year =>
      (df.filter (fun r =>
        match r.ts with
        | some t => decide (t.year = year)
        | none => false), natToStr year)

/-! ### Aggregator (annual variant, `group_summaries`) -/

/-- Pandas `groupby` (with `dropna=False`): the distinct key values, each
with the sub-list of rows carrying it.  Key order is irrelevant here — every
consumer re-sorts the grouped table. -/
def groupByKey {α K : Type} [DecidableEq K] (key : α → K) (l : List α) : List (K × List α) :=
  (l.map key).dedup.map (fun k => (k, l.filter (fun x => decide (key x = k))))

/-- Pandas `count` aggregation: number of non-null values of the aggregated
column (here always the timestamp column). -/
def countValid (g : List Row) : Nat := (g.filter (fun r => r.ts.isSome)).length

/-- Pandas `max` over a timestamp column: the chronologically largest
non-`NaT` entry, `NaT` when there is none. -/
def optMaxDT (l : List DT) : Option DT :=
  l.foldl (fun acc t =>
    match acc with
    | none => some t
    | some m => if dtKey m < dtKey t then some t else some m) none

/-- Pandas `min` over a timestamp column. -/
def optMinDT (l : List DT) : Option DT :=
  l.foldl (fun acc t =>
    match acc with
    | none => some t
    | some m => if dtKey t < dtKey m then some t else some m) none

/-- `s.value_counts(dropna=True)` restricted to what `idxmax` consumes:
each distinct value with its multiplicity. -/
def value_counts (l : List Str) : List (Str × Nat) := l.dedup.map (fun v => (v, l.count v))

def idxmaxGo (best : Str × Nat) : List (Str × Nat) → Str
  | [] => best.1
  | p :: rest => if best.2 < p.2 then idxmaxGo p rest else idxmaxGo best rest

/-- `Series.idxmax`: the index of a maximal entry; `none` models the
`ValueError` it raises on an empty series. -/
def idxmaxCounts : List (Str × Nat) → Option Str
  | [] => none
  | p :: rest => some (idxmaxGo p rest)

/-- The `最常用分支` aggregation lambda of `group_summaries`:
`s.value_counts(dropna=True).idxmax() if s.dropna().shape[0] else pd.NA`.
`Except.error ()` is the (claimed unreachable) raise of `idxmax` on an
empty series. -/
def most_used_branch (branches : List (Option Str)) : Except Unit (Option Str) :=
  let dropped := branches.filterMap id
  if dropped.length ≠ 0 then
    match idxmaxCounts (value_counts dropped) with
    | some v => Except.ok (some v)
    | none => Except.error ()
  else Except.ok none

/-- A row of the by-project table (`<scope>_annual_summary.csv`). -/
structure ByProjRow where
  project : Option Str
  cnt : Nat
  firstTs : Option DT
  lastTs : Option DT
  branchKinds : Nat
  topBranch : Option Str
deriving DecidableEq, Repr

/-- A row of the by-project-and-branch table (`<scope>_annual_by_branch.csv`). -/
structure ByPBRow where
  project : Option Str
  branch : Option Str
  cnt : Nat
  firstTs : Option DT
  lastTs : Option DT
deriving DecidableEq, Repr

/-- A row of the by-month table (`<scope>_annual_monthly.csv`). -/
structure ByMonthRow where
  month : Str
  cnt : Nat
deriving DecidableEq, Repr

/-- `ts.to_period("M")` rendered as a string, `"NaT"` for a missing
timestamp (`astype(str)` turns `NaT` into that literal). -/
def periodM : Option DT → Str
  | none => "NaT".data
  | some t => natPad 4 t.year ++ "-".data ++ natPad 2 t.month

/-- Descending order on an optional latest-timestamp (pandas
`sort_values(..., ascending=False)` keeps `NaT` last). -/
def optDTDescLe : Option DT → Option DT → Prop
  | some x, some y => dtKey y ≤ dtKey x
  | some _, none => True
  | none, some _ => False
  | none, none => True

instance : DecidableRel optDTDescLe := fun a b =>
  match a, b with
  | some x, some y => inferInstanceAs (Decidable (dtKey y ≤ dtKey x))
  | some _, none => inferInstanceAs (Decidable True)
  | none, some _ => inferInstanceAs (Decidable False)
  | none, none => inferInstanceAs (Decidable True)

/-- The sort key of `sort_values([count, latest], ascending=[False, False])`:
count descending, ties by latest timestamp descending. -/
def cntTsLe (ca : Nat) (ta : Option DT) (cb : Nat) (tb : Option DT) : Prop :=
  cb < ca ∨ (ca = cb ∧ optDTDescLe ta tb)

instance (ca : Nat) (ta : Option DT) (cb : Nat) (tb : Option DT) :
    Decidable (cntTsLe ca ta cb tb) := by
  unfold cntTsLe
  infer_instance

def byProjLe (a b : ByProjRow) : Prop := cntTsLe a.cnt a.lastTs b.cnt b.lastTs

instance : DecidableRel byProjLe := fun a b => by
  unfold byProjLe
  infer_instance

def byPBLe (a b : ByPBRow) : Prop := cntTsLe a.cnt a.lastTs b.cnt b.lastTs

instance : DecidableRel byPBLe := fun a b => by
  unfold byPBLe
  infer_instance

/-- `sort_values("月份")`: ascending code-point order on month labels. -/
def byMonthLe (a b : ByMonthRow) : Prop := strLeB a.month b.month = true

instance : DecidableRel byMonthLe := fun a b => by
  unfold byMonthLe
  infer_instance

def mkByProj (p : Option Str × List Row) : ByProjRow :=
  { project := p.1,
    cnt := countValid p.2,
    firstTs := optMinDT (p.2.filterMap (fun r => r.ts)),
    lastTs := optMaxDT (p.2.filterMap (fun r => r.ts)),
    branchKinds := (p.2.filterMap (fun r => r.branch)).dedup.length,
    topBranch :=
      match most_used_branch (p.2.map (fun r => r.branch)) with
      | Except.ok v => v
      | Except.error _ => none }

/-- The by-project table of `group_summaries`. -/
def by_proj_table (df : List Row) : List ByProjRow :=
  List.insertionSort byProjLe ((groupByKey (fun r => r.project) df).map mkByProj)

def mkByPB (p : (Option Str × Option Str) × List Row) : ByPBRow :=
  { project := p.1.1,
    branch := p.1.2,
    cnt := countValid p.2,
    firstTs := optMinDT (p.2.filterMap (fun r => r.ts)),
    lastTs := optMaxDT (p.2.filterMap (fun r => r.ts)) }

/-- The by-project-and-branch table of `group_summaries`. -/
def by_pb_table (df : List Row) : List ByPBRow :=
  List.insertionSort byPBLe ((groupByKey (fun r => (r.project, r.branch)) df).map mkByPB)

/-- The monthly-distribution table of `group_summaries`: group on the
`月份` string column and take sizes, sorted ascending by month label. -/
def by_month_table (df : List Row) : List ByMonthRow :=
  List.insertionSort byMonthLe
    ((groupByKey (fun r => periodM r.ts) df).map (fun p => { month := p.1, cnt := p.2.length }))

/-- `group_summaries`: the three aggregate tables over a scoped table. -/
def group_summaries (df : List Row) : List ByProjRow × List ByPBRow × List ByMonthRow :=
  (by_proj_table df, by_pb_table df, by_month_table df)

/-! ### Main flow of the annual variant -/

/-- Result of one run of `yilian_monthly_webhook.main`: the two early
`sys.exit` paths, or the three aggregate artifacts that get written. -/
inductive Outcome where
  | exit1 : Outcome
  | exit2 : Outcome
  | wrote : List ByProjRow → List ByPBRow → List ByMonthRow → Outcome
deriving DecidableEq, Repr

def writesArtifacts : Outcome → Bool
  | Outcome.wrote _ _ _ => true
  | _ => false

/-- The per-file reading step of `main`: `read_csv_any` (`none` input means
every encoding failed), the `df.empty` skip, then `unify_dataframe`.
`normalize_headers` is applied here, as `read_csv_any` does. -/
def read_frames (auto : Str → Option DT) (pfmt : Str → Str → Option DT)
    (files : List (Option Frame)) : List (List Row) :=
  files.filterMap (fun of =>
    match of with
    | none => none
    | some f =>
      if f.rows.isEmpty then none
      else some (unify_dataframe auto pfmt (normalize_headers f)))

/-- `merged` after `pd.concat`, `deduplicate` and the
`merged["申请时间"].notna()` drop of unparseable-timestamp rows. -/
def merged_rows (auto : Str → Option DT) (pfmt : Str → Str → Option DT)
    (files : List (Option Frame)) : List Row :=
  (deduplicate (read_frames auto pfmt files).flatten).filter (fun r => r.ts.isSome)

/-- `yilian_monthly_webhook.main` up to the artifact-writing step:
no CSVs at all exits 1; no readable non-empty file exits 2; an empty scoped
table writes the three empty tables; otherwise `group_summaries` is written. -/
def main_run (auto : Str → Option DT) (pfmt : Str → Str → Option DT)
    (yearArg : Str) (files : List (Option Frame)) : Outcome :=
  if files.isEmpty then Outcome.exit1
  else if (read_frames auto pfmt files).isEmpty then Outcome.exit2
  else
    let scopedDf := (filter_scope (merged_rows auto pfmt files) yearArg).1
    if scopedDf.isEmpty then Outcome.wrote [] [] []
    else Outcome.wrote (by_proj_table scopedDf) (by_pb_table scopedDf) (by_month_table scopedDf)

/-! ### Source locators -/

/-- One file under the scanned root: the path segments of its directory
(relative to the root) and its file name. -/
structure FileEntry where
  dirs : List Str
  name : Str
deriving DecidableEq, Repr

/-- `EXCLUDE_DIRS` from `yilian_monthly_webhook.py`. -/
def EXCLUDE_DIRS : List Str :=
  ["results".data, ".github".data, ".git".data, ".venv".data, "venv".data,
   "__pycache__".data, ".idea".data, ".vscode".data]

/-- `find_csv_files` from `process_yilian.py`: `os.walk` visits every
directory (it never prunes `dirs`); a directory's files are skipped only
when that directory itself is named `skip_dir`, and a file is kept when its
lowercased name ends in `.csv`.  `rootName` is the name of the walk root
(the name `pathlib.Path(root).name` yields for files directly under it). -/
def find_csv_files (rootName : Str) (skip_dir : Str) (files : List FileEntry) :
    List FileEntry :=
  files.filter (fun f =>
    !(f.dirs.getLastD rootName == skip_dir) && endsWithStr (lowerStr f.name) ".csv".data)

/-- `collect_csvs` from `yilian_monthly_webhook.py`: `rglob("*.csv")` (a
case-sensitive match on POSIX), then drop any path whose relative parts —
directories and file name alike — intersect `EXCLUDE_DIRS` or contain a
segment starting with a dot. -/
def collect_csvs (files : List FileEntry) : List FileEntry :=
  files.filter (fun f =>
    endsWithStr f.name ".csv".data &&
      (f.dirs ++ [f.name]).all (fun seg => !(EXCLUDE_DIRS.contains seg)) &&
      !((f.dirs ++ [f.name]).any (fun seg => startsWithStr seg ".".data)))

/-- The locator contract as the specification states it: every file whose
name ends in `.csv` case-insensitively, excluding any file with a path
segment that matches an excluded name or begins with a dot, at any depth. -/
def spec_locator (excluded : List Str) (files : List FileEntry) : List FileEntry :=
  files.filter (fun f =>
    endsWithStr (lowerStr f.name) ".csv".data &&
      (f.dirs ++ [f.name]).all (fun seg =>
        !(excluded.contains seg) && !(startsWithStr seg ".".data)))

/-! ### Ingestion of the monthly variant -/

/-- `load_and_concat` from `process_yilian.py`: per file (`none` means every
encoding failed), strip the header names, and keep the three fixed columns
only when the required header set is present (the newline variant is
checked after stripping, so its branch can no longer fire); a file without
them contributes nothing.  Output rows are raw (project, branch, time)
cell triples. -/
def load_and_concat (files : List (Option Frame)) : List (Cell × Cell × Cell) :=
  (files.map (fun of =>
    match of with
    | none => []
    | some df =>
      let hs := df.headers.map trimStr
      let pick := fun (c1 c2 c3 : Str) =>
        match colIdx c1 hs, colIdx c2 hs, colIdx c3 hs with
        | some i, some j, some k =>
          df.rows.map (fun r => (r.getD i none, r.getD j none, r.getD k none))
        | _, _, _ => []
      if "项目名".data ∈ hs ∧ "基于哪条manifest分支".data ∈ hs ∧ "申请时间".data ∈ hs then
        pick "项目名".data "基于哪条manifest分支".data "申请时间".data
      else if "项目名".data ∈ hs ∧ "基于哪条manifest分支\n".data ∈ hs ∧ "申请时间".data ∈ hs then
        pick "项目名".data "基于哪条manifest分支\n".data "申请时间".data
      else [])).flatten

/-- The membership mask of `build_monthly_summary`:
`(t >= prev_start) & (t <= prev_end)` — `NaT` compares false. -/
def inPrevWindow (prev_start prev_end : DT) : Option DT → Bool
  | some t => Nat.ble (dtKey prev_start) (dtKey t) && Nat.ble (dtKey t) (dtKey prev_end)
  | none => false

/-- `最近一次访问时间` rendering: `strftime("%Y-%m-%d %H:%M:%S")`. -/
def fmtFull (t : DT) : Str :=
  natPad 4 t.year ++ "-".data ++ natPad 2 t.month ++ "-".data ++ natPad 2 t.day ++ " ".data ++
    natPad 2 t.hour ++ ":".data ++ natPad 2 t.minute ++ ":".data ++ natPad 2 t.second

/-- A row of the monthly summary table (`<YYYY-MM>_summary.csv`). -/
structure MRow where
  project : Str
  branch : Str
  visits : Nat
  lastVisit : Str
deriving DecidableEq, Repr

/-- The sort key of `sort_values(["项目名", "访问次数"], ascending=[True, False])`:
project name ascending, ties by visit count descending. -/
def mrowLe (a b : MRow) : Prop :=
  strLtB a.project b.project = true ∨ (a.project = b.project ∧ b.visits ≤ a.visits)

instance : DecidableRel mrowLe := fun a b => by
  unfold mrowLe
  infer_instance

/-- `build_monthly_summary` from `process_yilian.py`: parse the raw time
column with the automatic parser only, keep the rows inside the previous
month of `now_local`, group by (project, branch) — pandas `groupby` default
`dropna=True` silently drops rows with a missing key —, aggregate count and
max, and sort by project ascending then count descending.  The second
component is the `YYYY-MM` scope label. -/
def build_monthly_summary (auto : Str → Option DT)
    (df_all : List (Cell × Cell × Cell)) (now_local : DT) : List MRow × Str :=
  let pr := prev_month_range now_local
  if df_all.isEmpty then ([], month_label now_local)
  else
    let parsed := df_all.map (fun r => (r.1, r.2.1, r.2.2.bind auto))
    let recent := parsed.filter (fun r => inPrevWindow pr.1 pr.2 r.2.2)
    if recent.isEmpty then ([], month_label now_local)
    else
      let keyed := recent.filterMap (fun r =>
        match r.1, r.2.1 with
        | some p, some b => some ((p, b), r.2.2)
        | _, _ => none)
      let grouped := groupByKey (fun r => r.1) keyed
      let summary := grouped.map (fun p =>
        { project := p.1.1,
          branch := p.1.2,
          visits := (p.2.filter (fun r => r.2.isSome)).length,
          lastVisit :=
            match optMaxDT (p.2.filterMap (fun r => r.2)) with
            | some t => fmtFull t
            | none => [] } )
      (List.insertionSort mrowLe summary, month_label now_local)

/-! ### HMAC-SHA256 signing (`sign_headers` vs `feishu_sign`) -/

/-- Truncation to a 32-bit word. -/
def w32 (x : Nat) : Nat := x % 4294967296

/-- 32-bit right rotation. -/
def rotr32 (n x : Nat) : Nat := w32 ((x >>> n) ||| (x <<< (32 - n)))

/-- The SHA-256 round constants. -/
def SHA_K : List Nat :=
  [1116352408, 1899447441, 3049323471, 3921009573, 961987163, 1508970993,
   2453635748, 2870763221, 3624381080, 310598401, 607225278, 1426881987,
   1925078388, 2162078206, 2614888103, 3248222580, 3835390401, 4022224774,
   264347078, 604807628, 770255983, 1249150122, 1555081692, 1996064986,
   2554220882, 2821834349, 2952996808, 3210313671, 3336571891, 3584528711,
   113926993, 338241895, 666307205, 773529912, 1294757372, 1396182291,
   1695183700, 1986661051, 2177026350, 2456956037, 2730485921, 2820302411,
   3259730800, 3345764771, 3516065817, 3600352804, 4094571909, 275423344,
   430227734, 506948616, 659060556, 883997877, 958139571, 1322822218,
   1537002063, 1747873779, 1955562222, 2024104815, 2227730452, 2361852424,
   2428436474, 2756734187, 3204031479, 3329325298]

/-- The SHA-256 initial hash state. -/
def SHA_H0 : List Nat :=
  [1779033703, 3144134277, 1013904242, 2773480762,
   1359893119, 2600822924, 528734635, 1541459225]

/-- Big-endian byte rendering of `x` on `k` bytes. -/
def beBytes (k x : Nat) : List Nat :=
  (List.range k).map (fun i => (x >>> (8 * (k - 1 - i))) % 256)

/-- SHA-256 message padding: `0x80`, zeros to 56 mod 64, the bit length on
8 bytes. -/
def sha_pad (msg : List Nat) : List Nat :=
  msg ++ [0x80] ++ List.replicate ((119 - msg.length % 64) % 64) 0 ++ beBytes 8 (8 * msg.length)

/-- Big-endian 32-bit words of a byte list. -/
def toWords (bs : List Nat) : List Nat :=
  (List.range (bs.length / 4)).map (fun i =>
    (bs.getD (4 * i) 0 <<< 24) + (bs.getD (4 * i + 1) 0 <<< 16) +
      (bs.getD (4 * i + 2) 0 <<< 8) + bs.getD (4 * i + 3) 0)

/-- The SHA-256 message schedule: extend 16 words to 64. -/
def sha_schedule (w16 : List Nat) : List Nat :=
  (List.range 48).foldl (fun w _ =>
    let i := w.length
    let x15 := w.getD (i - 15) 0
    let x2 := w.getD (i - 2) 0
    let s0 := rotr32 7 x15 ^^^ rotr32 18 x15 ^^^ (x15 >>> 3)
    let s1 := rotr32 17 x2 ^^^ rotr32 19 x2 ^^^ (x2 >>> 10)
    w ++ [w32 (w.getD (i - 16) 0 + s0 + w.getD (i - 7) 0 + s1)]) w16

/-- One SHA-256 round on the 8-word working state. -/
def sha_round (st : List Nat) (kw : Nat × Nat) : List Nat :=
  match st with
  | [a, b, c, d, e, f, g, h] =>
    let S1 := rotr32 6 e ^^^ rotr32 11 e ^^^ rotr32 25 e
    let ch := (e &&& f) ^^^ ((e ^^^ 4294967295) &&& g)
    let t1 := w32 (h + S1 + ch + kw.1 + kw.2)
    let S0 := rotr32 2 a ^^^ rotr32 13 a ^^^ rotr32 22 a
    let mj := (a &&& b) ^^^ (a &&& c) ^^^ (b &&& c)
    let t2 := w32 (S0 + mj)
    [w32 (t1 + t2), a, b, c, w32 (d + t1), e, f, g]
  | _ => st

/-- Compression of one 64-byte block into the hash state. -/
def sha_compress (h : List Nat) (block : List Nat) : List Nat :=
  let w := sha_schedule (toWords block)
  let st := (SHA_K.zip w).foldl sha_round h
  (h.zip st).map (fun p => w32 (p.1 + p.2))

/-- SHA-256 of a byte list. -/
def sha256 (msg : List Nat) : List Nat :=
  let p := sha_pad msg
  let hh := (List.range (p.length / 64)).foldl
    (fun h i => sha_compress h ((p.drop (64 * i)).take 64)) SHA_H0
  (hh.map (beBytes 4)).flatten

/-- `hmac.new(key, msg, hashlib.sha256).digest()`. -/
def hmacSha256 (key msg : List Nat) : List Nat :=
  let k0 := if key.length > 64 then sha256 key else key
  let k := k0 ++ List.replicate (64 - k0.length) 0
  sha256 ((k.map (fun b => b ^^^ 0x5c)) ++ sha256 ((k.map (fun b => b ^^^ 0x36)) ++ msg))

/-- UTF-8 bytes of a string; the signing inputs (decimal timestamps and
webhook secrets) are ASCII, where UTF-8 bytes are the code points. -/
def strBytes (s : Str) : List Nat := s.map Char.toNat

def B64_ALPHABET : Str :=
  "ABCDEFGHIJKLMNOPQRSTUVWXYZabcdefghijklmnopqrstuvwxyz0123456789+/".data

/-- `base64.b64encode` of a byte list, as a string. -/
def b64encode : List Nat → Str
  | [] => []
  | [a] =>
    [B64_ALPHABET.getD (a / 4) 'A', B64_ALPHABET.getD (a % 4 * 16) 'A', '=', '=']
  | [a, b] =>
    [B64_ALPHABET.getD (a / 4) 'A', B64_ALPHABET.getD (a % 4 * 16 + b / 16) 'A',
     B64_ALPHABET.getD (b % 16 * 4) 'A', '=']
  | a :: b :: c :: rest =>
    B64_ALPHABET.getD (a / 4) 'A' :: B64_ALPHABET.getD (a % 4 * 16 + b / 16) 'A' ::
      B64_ALPHABET.getD (b % 16 * 4 + c / 64) 'A' :: B64_ALPHABET.getD (c % 64) 'A' ::
        b64encode rest

/-- `sign_headers` from `process_yilian.py` with the wall-clock timestamp
passed explicitly: HMAC keyed by the secret over the message
`"<ts>\n<secret>"`, base64-encoded, returned alongside the timestamp. -/
def sign_headers (secret ts : Str) : Str × Str :=
  let string_to_sign := ts ++ "\n".data ++ secret
  let digest := hmacSha256 (strBytes secret) (strBytes string_to_sign)
  (ts, b64encode digest)

/-- `feishu_sign` from `yilian_monthly_webhook.py`: HMAC keyed by
`"<timestamp>\n<secret>"` over the empty message, base64-encoded. -/
def feishu_sign (secret timestamp : Str) : Str :=
  let string_to_sign := strBytes (timestamp ++ "\n".data ++ secret)
  b64encode (hmacSha256 string_to_sign [])

/-! ### A concrete date parser for witnesses -/

def splitOnCharGo (sep : Char) : Str → Str → List Str
  | [], acc => [acc.reverse]
  | c :: rest, acc =>
    if c = sep then acc.reverse :: splitOnCharGo sep rest []
    else splitOnCharGo sep rest (c :: acc)

def splitOnChar (sep : Char) (s : Str) : List Str := splitOnCharGo sep s []

/-- Parser for the unambiguous ISO forms `YYYY-MM-DD HH:MM:SS` and
`YYYY-MM-DD`, the concrete stand-in for pandas' automatic parser in the
witnesses below (pandas parses exactly these strings to the same instants). -/
def parse_iso (s : Str) : Option DT :=
  match splitOnChar ' ' s with
  | [d] =>
    match (splitOnChar '-' d).map strToNat? with
    | [some y, some mo, some da] => some ⟨y, mo, da, 0, 0, 0⟩
    | _ => none
  | [d, t] =>
    match (splitOnChar '-' d).map strToNat?, (splitOnChar ':' t).map strToNat? with
    | [some y, some mo, some da], [some h, some mi, some se] => some ⟨y, mo, da, h, mi, se⟩
    | _, _ => none
  | _ => none

/-- A parser that rejects everything: the behaviour of both pandas parsers
on garbage input. -/
def parse_nothing : Str → Option DT := fun _ => none

/-- A per-format parser that rejects everything (no fallback format
matches), used to instantiate `pfmt` in witnesses. -/
def pfmt_nothing : Str → Str → Option DT := fun _ _ => none

/-! ### Order lemmas for the sort relations -/

theorem char_toNat_inj (a b : Char) (h : a.toNat = b.toNat) : a = b := by
  apply Char.eq_of_val_eq
  exact UInt32.toNat.inj h

theorem strLeB_total : ∀ (a b : Str), strLeB a b = true ∨ strLeB b a = true
  | [], _ => Or.inl rfl
  | _ :: _, [] => Or.inr rfl
  | a :: as, b :: bs => by
    by_cases h1 : a.toNat < b.toNat
    · left
      simp [strLeB, h1]
    · by_cases h2 : b.toNat < a.toNat
      · right
        simp [strLeB, h2]
      · rcases strLeB_total as bs with h | h
        · left
          simp [strLeB, h1, h2, h]
        · right
          simp [strLeB, h1, h2, h]

theorem strLeB_trans : ∀ (a b c : Str),
    strLeB a b = true → strLeB b c = true → strLeB a c = true
  | [], _, _ => by
    intro _ _
    rfl
  | _ :: _, [], _ => by
    intro h _
    simp [strLeB] at h
  | _ :: _, _ :: _, [] => by
    intro _ h
    simp [strLeB] at h
  | a :: as, b :: bs, c :: cs => by
    intro h1 h2
    simp only [strLeB] at h1 h2 ⊢
    by_cases hba : b.toNat < a.toNat
    · simp [hba, show ¬ a.toNat < b.toNat by omega] at h1
    · by_cases hcb : c.toNat < b.toNat
      · simp [hcb, show ¬ b.toNat < c.toNat by omega] at h2
      · by_cases hac : a.toNat < c.toNat
        · simp [hac]
        · have h3 : ¬ a.toNat < b.toNat := by omega
          have h4 : ¬ b.toNat < c.toNat := by omega
          simp [h3, hba] at h1
          simp [h4, hcb] at h2
          simp [hac, show ¬ c.toNat < a.toNat by omega]
          exact strLeB_trans as bs cs h1 h2

theorem strLeB_antisymm : ∀ (a b : Str), strLeB a b = true → strLeB b a = true → a = b
  | [], [] => by
    intro _ _
    rfl
  | [], _ :: _ => by
    intro _ h
    simp [strLeB] at h
  | _ :: _, [] => by
    intro h _
    simp [strLeB] at h
  | a :: as, b :: bs => by
    intro h1 h2
    simp only [strLeB] at h1 h2
    by_cases hab : a.toNat < b.toNat <;> by_cases hba : b.toNat < a.toNat <;>
      simp [hab, hba] at h1 h2
    · omega
    · have hc : a = b := char_toNat_inj a b (by omega)
      have : as = bs := strLeB_antisymm as bs h1 h2
      simp [hc, this]

theorem strLtB_iff (a b : Str) : strLtB a b = true ↔ (strLeB a b = true ∧ a ≠ b) := by
  simp [strLtB, Bool.and_eq_true, Bool.not_eq_true']

theorem optDTDescLe_total (a b : Option DT) : optDTDescLe a b ∨ optDTDescLe b a := by
  cases a <;> cases b <;> simp [optDTDescLe] <;> try omega

theorem optDTDescLe_trans (a b c : Option DT) :
    optDTDescLe a b → optDTDescLe b c → optDTDescLe a c := by
  cases a <;> cases b <;> cases c <;> simp [optDTDescLe] <;> try omega

theorem cntTsLe_total (ca : Nat) (ta : Option DT) (cb : Nat) (tb : Option DT) :
    cntTsLe ca ta cb tb ∨ cntTsLe cb tb ca ta := by
  unfold cntTsLe
  rcases Nat.lt_trichotomy ca cb with h | h | h
  · right
    exact Or.inl h
  · rcases optDTDescLe_total ta tb with hd | hd
    · left
      exact Or.inr ⟨h, hd⟩
    · right
      exact Or.inr ⟨h.symm, hd⟩
  · left
    exact Or.inl h

theorem cntTsLe_trans (ca : Nat) (ta : Option DT) (cb : Nat) (tb : Option DT)
    (cc : Nat) (tc : Option DT) :
    cntTsLe ca ta cb tb → cntTsLe cb tb cc tc → cntTsLe ca ta cc tc := by
  unfold cntTsLe
  rintro (h1 | ⟨he1, hd1⟩) (h2 | ⟨he2, hd2⟩)
  · exact Or.inl (by omega)
  · exact Or.inl (by omega)
  · exact Or.inl (by omega)
  · exact Or.inr ⟨by omega, optDTDescLe_trans ta tb tc hd1 hd2⟩

instance : IsTotal ByProjRow byProjLe :=
  ⟨fun a b => cntTsLe_total a.cnt a.lastTs b.cnt b.lastTs⟩

instance : IsTrans ByProjRow byProjLe :=
  ⟨fun a b c => cntTsLe_trans a.cnt a.lastTs b.cnt b.lastTs c.cnt c.lastTs⟩

instance : IsTotal ByPBRow byPBLe :=
  ⟨fun a b => cntTsLe_total a.cnt a.lastTs b.cnt b.lastTs⟩

instance : IsTrans ByPBRow byPBLe :=
  ⟨fun a b c => cntTsLe_trans a.cnt a.lastTs b.cnt b.lastTs c.cnt c.lastTs⟩

instance : IsTotal ByMonthRow byMonthLe :=
  ⟨fun a b => strLeB_total a.month b.month⟩

instance : IsTrans ByMonthRow byMonthLe :=
  ⟨fun a b c => strLeB_trans a.month b.month c.month⟩

instance : IsTotal MRow mrowLe := by
  constructor
  intro a b
  unfold mrowLe
  by_cases hp : a.project = b.project
  · rcases Nat.le_total b.visits a.visits with h | h
    · exact Or.inl (Or.inr ⟨hp, h⟩)
    · exact Or.inr (Or.inr ⟨hp.symm, h⟩)
  · rcases strLeB_total a.project b.project with h | h
    · exact Or.inl (Or.inl ((strLtB_iff _ _).mpr ⟨h, hp⟩))
    · exact Or.inr (Or.inl ((strLtB_iff _ _).mpr ⟨h, Ne.symm hp⟩))

instance : IsTrans MRow mrowLe := by
  constructor
  intro a b c h1 h2
  unfold mrowLe at h1 h2 ⊢
  rcases h1 with h1 | ⟨he1, hv1⟩
  · rw [strLtB_iff] at h1
    rcases h2 with h2 | ⟨he2, hv2⟩
    · rw [strLtB_iff] at h2
      refine Or.inl ((strLtB_iff _ _).mpr ⟨strLeB_trans _ _ _ h1.1 h2.1, ?_⟩)
      intro hac
      exact h1.2 (strLeB_antisymm _ _ h1.1 (hac ▸ h2.1))
    · exact Or.inl ((strLtB_iff _ _).mpr ⟨he2 ▸ h1.1, he2 ▸ h1.2⟩)
  · rcases h2 with h2 | ⟨he2, hv2⟩
    · exact Or.inl (he1 ▸ h2)
    · exact Or.inr ⟨he1.trans he2, le_trans hv2 hv1⟩

/-! ### Deduplication lemmas -/

theorem dedupGo_key_not_seen :
    ∀ (l : List Row) (seen : List (Option Str × Option Str × Option DT)),
      ∀ r ∈ dedupGo seen l, rowKey r ∉ seen
  | [], _ => by
    intro r hr
    simp [dedupGo] at hr
  | x :: xs, seen => by
    intro r hr
    by_cases hx : rowKey x ∈ seen
    · rw [dedupGo, if_pos hx] at hr
      exact dedupGo_key_not_seen xs seen r hr
    · rw [dedupGo, if_neg hx] at hr
      rcases List.mem_cons.mp hr with h | h
      · subst h
        exact hx
      · have := dedupGo_key_not_seen xs (rowKey x :: seen) r h
        intro hmem
        exact this (List.mem_cons_of_mem _ hmem)

theorem dedupGo_pairwise :
    ∀ (l : List Row) (seen : List (Option Str × Option Str × Option DT)),
      (dedupGo seen l).Pairwise (fun a b => rowKey a ≠ rowKey b)
  | [], _ => by
    simp [dedupGo]
  | x :: xs, seen => by
    by_cases hx : rowKey x ∈ seen
    · rw [dedupGo, if_pos hx]
      exact dedupGo_pairwise xs seen
    · rw [dedupGo, if_neg hx]
      refine List.pairwise_cons.mpr ⟨?_, dedupGo_pairwise xs (rowKey x :: seen)⟩
      intro r hr he
      exact dedupGo_key_not_seen xs (rowKey x :: seen) r hr (he ▸ List.mem_cons_self _ _)

theorem dedupGo_of_pairwise :
    ∀ (l : List Row) (seen : List (Option Str × Option Str × Option DT)),
      l.Pairwise (fun a b => rowKey a ≠ rowKey b) →
      (∀ r ∈ l, rowKey r ∉ seen) → dedupGo seen l = l
  | [], _ => by
    intro _ _
    rfl
  | x :: xs, seen => by
    intro hp hs
    have hx : rowKey x ∉ seen := hs x (List.mem_cons_self _ _)
    rw [dedupGo, if_neg hx]
    rcases List.pairwise_cons.mp hp with ⟨hhead, htail⟩
    have : dedupGo (rowKey x :: seen) xs = xs := by
      refine dedupGo_of_pairwise xs (rowKey x :: seen) htail ?_
      intro r hr
      intro hmem
      rcases List.mem_cons.mp hmem with h | h
      · exact hhead r hr h.symm
      · exact hs r (List.mem_cons_of_mem _ hr) h
    rw [this]

/-- C7: deduplication on the (project, branch, timestamp) triple is
idempotent — deduplicating an already-deduplicated table is a no-op. -/
theorem dedupe_idempotent (df : List Row) : deduplicate (deduplicate df) = deduplicate df := by
  unfold deduplicate
  refine dedupGo_of_pairwise (dedupGo [] df) [] (dedupGo_pairwise df []) ?_
  intro r _
  simp

/-! ### Previous-month window -/

theorem prev_month_range_eq (now : DT) (h : ValidDT now) :
    prev_month_range now =
      (⟨(prevYM now).1, (prevYM now).2, 1, 0, 0, 0⟩,
       ⟨(prevYM now).1, (prevYM now).2, daysInMonth (prevYM now).1 (prevYM now).2, 23, 59, 59⟩) := by
  obtain ⟨hy, hm1, hm12, _⟩ := h
  unfold prev_month_range subOneSecond prevYM
  by_cases hm : now.month = 1
  · simp [hm, daysInMonth, isLeap]
  · have hgt : now.month > 1 := by omega
    simp [hm, hgt]

/-- C3: for every valid reference instant the previous-month window is
[first day of the previous month 00:00:00, last day of the previous month
23:59:59], the scope label is the `YYYY-MM` rendering of that previous
month, and at the reference instant 2025-03-15 10:00:00 the window is
[2025-02-01 00:00:00, 2025-02-28 23:59:59] with 2025-02-28 23:59:59 inside
the mask, 2025-03-01 00:00:00 outside it, and label `2025-02`. -/
theorem c3_prev_month_scope (now : DT) (h : ValidDT now) :
    prev_month_range now =
      (⟨(prevYM now).1, (prevYM now).2, 1, 0, 0, 0⟩,
       ⟨(prevYM now).1, (prevYM now).2, daysInMonth (prevYM now).1 (prevYM now).2, 23, 59, 59⟩) ∧
    month_label now = natPad 4 (prevYM now).1 ++ "-".data ++ natPad 2 (prevYM now).2 ∧
    prev_month_range ⟨2025, 3, 15, 10, 0, 0⟩ =
      (⟨2025, 2, 1, 0, 0, 0⟩, ⟨2025, 2, 28, 23, 59, 59⟩) ∧
    inPrevWindow ⟨2025, 2, 1, 0, 0, 0⟩ ⟨2025, 2, 28, 23, 59, 59⟩
      (some ⟨2025, 2, 28, 23, 59, 59⟩) = true ∧
    inPrevWindow ⟨2025, 2, 1, 0, 0, 0⟩ ⟨2025, 2, 28, 23, 59, 59⟩
      (some ⟨2025, 3, 1, 0, 0, 0⟩) = false ∧
    month_label ⟨2025, 3, 15, 10, 0, 0⟩ = "2025-02".data := by
  refine ⟨prev_month_range_eq now h, ?_, by decide, by decide, by decide, by decide⟩
  unfold month_label
  rw [prev_month_range_eq now h]

/-- Witness for C3 at the concrete reference instant of the specification. -/
theorem c3_prev_month_scope_witness :
    prev_month_range ⟨2025, 3, 15, 10, 0, 0⟩ =
      (⟨2025, 2, 1, 0, 0, 0⟩, ⟨2025, 2, 28, 23, 59, 59⟩) :=
  (c3_prev_month_scope ⟨2025, 3, 15, 10, 0, 0⟩ (by decide)).2.2.1

/-! ### Unparseable timestamps -/

theorem firstSome_eq_none (l : List (Option DT)) (h : ∀ x ∈ l, x = none) :
    firstSome l = none := by
  induction l with
  | nil => rfl
  | cons x rest ih =>
    have hx := h x (List.mem_cons_self _ _)
    subst hx
    exact ih (fun y hy => h y (List.mem_cons_of_mem _ hy))

theorem filter_scope_subset (df : List Row) (scope : Str) :
    ∀ r ∈ (filter_scope df scope).1, r ∈ df := by
  intro r hr
  unfold filter_scope at hr
  split at hr
  · exact hr
  · split at hr
    · exact hr
    · exact (List.mem_filter.mp hr).1

/-- C4: a timestamp cell that the automatic parser and every fallback
format reject resolves to the `NaT` sentinel (as does a missing cell), and
rows with an unparseable timestamp are excluded from every time-scoped
aggregation: the annual variant's scoped table only ever contains rows with
a parsed timestamp, and the monthly variant's window mask never admits
`NaT`. -/
theorem c4_unparseable_excluded :
    (∀ (auto : Str → Option DT) (pfmt : Str → Str → Option DT) (s : Str),
       auto s = none → (∀ f ∈ DATE_FORMATS_HINT, pfmt f s = none) →
       to_datetime_safe auto pfmt (some s) = none) ∧
    (∀ (auto : Str → Option DT) (pfmt : Str → Str → Option DT),
       to_datetime_safe auto pfmt none = none) ∧
    (∀ (auto : Str → Option DT) (pfmt : Str → Str → Option DT)
       (files : List (Option Frame)) (arg : Str) (r : Row),
       r ∈ (filter_scope (merged_rows auto pfmt files) arg).1 → r.ts.isSome = true) ∧
    (∀ (ps pe : DT) (od : Option DT), inPrevWindow ps pe od = true → od.isSome = true) := by
  refine ⟨?_, ?_, ?_, ?_⟩
  · intro auto pfmt s hauto hfmt
    show (match auto s with
      | some d => some d
      | none => firstSome (DATE_FORMATS_HINT.map (fun f => pfmt f s))) = none
    rw [hauto]
    apply firstSome_eq_none
    intro x hx
    rcases List.mem_map.mp hx with ⟨f, hf, rfl⟩
    exact hfmt f hf
  · intro auto pfmt
    rfl
  · intro auto pfmt files arg r hr
    have hm := filter_scope_subset (merged_rows auto pfmt files) arg r hr
    unfold merged_rows at hm
    exact (List.mem_filter.mp hm).2
  · intro ps pe od h
    cases od with
    | some t => rfl
    | none => exact absurd h (by simp [inPrevWindow])

/-- Witness for C4: a cell both concrete parsers reject stays `NaT`. -/
theorem c4_unparseable_excluded_witness :
    to_datetime_safe parse_nothing pfmt_nothing (some "garbage".data) = none :=
  c4_unparseable_excluded.1 parse_nothing pfmt_nothing "garbage".data rfl (fun _ _ => rfl)

/-! ### Totality of the most-frequent-branch aggregation -/

/-- C10: the `idxmax`-raises branch of the most-frequent-branch lambda is
unreachable, and a project group whose branch values are all missing gets
the missing sentinel as its most-used branch. -/
theorem c10_mode_total :
    (∀ bs : List (Option Str), most_used_branch bs ≠ Except.error ()) ∧
    (∀ df : List Row, (∀ r ∈ df, r.branch = none) →
       ∀ x ∈ by_proj_table df, x.topBranch = none) := by
  constructor
  · intro bs
    unfold most_used_branch
    by_cases h : (bs.filterMap id).length ≠ 0
    · rw [if_pos h]
      rcases hv : value_counts (bs.filterMap id) with _ | ⟨p, rest⟩
      · exfalso
        unfold value_counts at hv
        have hd := List.map_eq_nil_iff.mp hv
        rw [List.dedup_eq_nil] at hd
        simp [hd] at h
      · simp [idxmaxCounts]
    · rw [if_neg h]
      simp
  · intro df hbr x hx
    unfold by_proj_table at hx
    rw [List.mem_insertionSort] at hx
    rcases List.mem_map.mp hx with ⟨⟨k, g⟩, hg, rfl⟩
    unfold groupByKey at hg
    rcases List.mem_map.mp hg with ⟨k', _, heq⟩
    injection heq with h1 h2
    subst h2
    have hnone : ∀ b ∈ (df.filter (fun x => decide (x.project = k'))).map
        (fun r => r.branch), id b = none := by
      intro b hb
      rcases List.mem_map.mp hb with ⟨r, hrg, rfl⟩
      exact hbr r (List.mem_filter.mp hrg).1
    unfold mkByProj most_used_branch
    have hdrop : ((df.filter (fun x => decide (x.project = k'))).map
        (fun r => r.branch)).filterMap id = [] :=
      List.filterMap_eq_nil_iff.mpr hnone
    simp [hdrop]

/-- A two-project table whose branch column is entirely missing. -/
def dfC10 : List Row :=
  [{ project := some "a".data, branch := none, ts := none },
   { project := some "b".data, branch := none, ts := some ⟨2025, 1, 1, 0, 0, 0⟩ }]

/-- Witness for C10: on a concrete all-missing-branch table every by-project
row carries the missing sentinel as its most-used branch. -/
theorem c10_mode_total_witness :
    (by_proj_table dfC10).all (fun x => x.topBranch == none) = true := by
  apply List.all_eq_true.mpr
  intro x hx
  have h := c10_mode_total.2 dfC10 (by decide) x hx
  simp [h]

/-! ### By-month aggregate row count -/

theorem map_periodM_of_all_some (l : List Row) (h : ∀ r ∈ l, r.ts.isSome = true) :
    l.map (fun r => periodM r.ts) =
      (l.filterMap (fun r => r.ts)).map (fun t => periodM (some t)) := by
  induction l with
  | nil => rfl
  | cons r rest ih =>
    rcases ht : r.ts with _ | t
    · exact absurd (h r (List.mem_cons_self _ _)) (by simp [ht])
    · simp only [List.map_cons, List.filterMap_cons, ht]
      rw [ih (fun x hx => h x (List.mem_cons_of_mem _ hx))]

/-- C8: for every scope request over the annual pipeline's merged table,
the by-month aggregate has exactly one row per distinct `YYYY-MM` month
string occurring among the (all parseable) timestamps of the scoped table. -/
theorem c8_by_month_row_count (auto : Str → Option DT) (pfmt : Str → Str → Option DT)
    (files : List (Option Frame)) (arg : Str) :
    (by_month_table ((filter_scope (merged_rows auto pfmt files) arg).1)).length =
      ((((filter_scope (merged_rows auto pfmt files) arg).1).filterMap (fun r => r.ts)).map
        (fun t => periodM (some t))).dedup.length := by
  have hall : ∀ r ∈ (filter_scope (merged_rows auto pfmt files) arg).1, r.ts.isSome = true := by
    intro r hr
    have hm := filter_scope_subset (merged_rows auto pfmt files) arg r hr
    unfold merged_rows at hm
    exact (List.mem_filter.mp hm).2
  unfold by_month_table groupByKey
  rw [List.length_insertionSort, List.length_map, List.length_map]
  rw [map_periodM_of_all_some _ hall]

/-! ### Sort order of the summary tables -/

/-- C6 (amended): the annual `group_summaries` tables are sorted descending
by count with ties broken by latest timestamp descending, while the monthly
`build_monthly_summary` table is sorted ascending by project name with ties
broken by visit count descending. -/
theorem c6_sorted_tables :
    (∀ df : List Row, (by_proj_table df).Sorted byProjLe) ∧
    (∀ df : List Row, (by_pb_table df).Sorted byPBLe) ∧
    (∀ (auto : Str → Option DT) (df_all : List (Cell × Cell × Cell)) (now_local : DT),
       ((build_monthly_summary auto df_all now_local).1).Sorted mrowLe) := by
  refine ⟨?_, ?_, ?_⟩
  · intro df
    exact List.sorted_insertionSort byProjLe _
  · intro df
    exact List.sorted_insertionSort byPBLe _
  · intro auto df_all now_local
    unfold build_monthly_summary
    dsimp only
    split
    · exact List.sorted_nil
    · split
      · exact List.sorted_nil
      · exact List.sorted_insertionSort mrowLe _

/-- Three raw monthly rows: two visits of project `b`, one of project `a`,
all inside February 2025. -/
def rowsC6 : List (Cell × Cell × Cell) :=
  [(some "b".data, some "x".data, some "2025-02-10 00:00:00".data),
   (some "b".data, some "x".data, some "2025-02-11 00:00:00".data),
   (some "a".data, some "y".data, some "2025-02-12 00:00:00".data)]

/-- Adjacent visit counts never increase: a consequence of the sort order
the claim asserts (descending by count, ties by latest timestamp). -/
def chainCntDesc : List MRow → Bool
  | a :: b :: rest => Nat.ble b.visits a.visits && chainCntDesc (b :: rest)
  | _ => true

/-- Counterexample to C6 as stated: the monthly by-project-and-branch
summary puts the 1-visit project `a` before the 2-visit project `b`,
because `build_monthly_summary` sorts by project name first. -/
theorem c6_counterexample :
    (build_monthly_summary parse_iso rowsC6 ⟨2025, 3, 15, 10, 0, 0⟩).1 =
      [{ project := "a".data, branch := "y".data, visits := 1,
         lastVisit := "2025-02-12 00:00:00".data },
       { project := "b".data, branch := "x".data, visits := 2,
         lastVisit := "2025-02-11 00:00:00".data }] ∧
    chainCntDesc (build_monthly_summary parse_iso rowsC6 ⟨2025, 3, 15, 10, 0, 0⟩).1 = false := by
  constructor
  · decide
  · decide

/-! ### Rows of unrecognized-schema files survive `unify_dataframe` -/

theorem canonName_eq_self (h : Str) (hna : ∀ p ∈ CANON_COLS, h ∉ p.2) : canonName h = h := by
  unfold canonName
  have hfind : CANON_COLS.find? (fun p => decide (h ∈ p.2)) = none := by
    apply List.find?_eq_none.mpr
    intro p hp hc
    exact hna p hp (of_decide_eq_true hc)
  rw [hfind]

theorem colIdx_eq_none : ∀ (name : Str) (l : List Str),
    (∀ h ∈ l, h ≠ name) → colIdx name l = none
  | _, [] => fun _ => rfl
  | name, h :: t => fun hne => by
    rw [colIdx, if_neg (hne h (List.mem_cons_self _ _))]
    rw [colIdx_eq_none name t (fun x hx => hne x (List.mem_cons_of_mem _ hx))]
    rfl

theorem getD_replicate_none : ∀ (n i : Nat), (List.replicate n (none : Cell)).getD i none = none
  | 0, 0 => rfl
  | 0, _ + 1 => rfl
  | _ + 1, 0 => rfl
  | n + 1, i + 1 => getD_replicate_none n i

theorem getD_replicate_noneDT : ∀ (n i : Nat),
    (List.replicate n (none : Option DT)).getD i none = none
  | 0, 0 => rfl
  | 0, _ + 1 => rfl
  | _ + 1, 0 => rfl
  | n + 1, i + 1 => getD_replicate_noneDT n i

/-- C2 (amended, annual variant): a file that parses but has none of the
recognized header aliases flows through `unify_dataframe` with all its rows
kept, project and branch filled with the missing sentinel for every row,
and — when no header passes the date-keyword fallback either — an
all-`NaT` timestamp column. -/
theorem c2_unify_keeps_rows (auto : Str → Option DT) (pfmt : Str → Str → Option DT)
    (f : Frame) (hal : ∀ c ∈ f.headers, ∀ p ∈ CANON_COLS, stripWS c ∉ p.2) :
    (unify_dataframe auto pfmt (normalize_headers f)).length = f.rows.length ∧
    (∀ r ∈ unify_dataframe auto pfmt (normalize_headers f),
       r.project = none ∧ r.branch = none) ∧
    ((∀ c ∈ f.headers, isDateLike (stripWS c) = false) →
       ∀ r ∈ unify_dataframe auto pfmt (normalize_headers f), r.ts = none) := by
  have hnh : ∀ h ∈ (normalize_headers f).headers, ∀ p ∈ CANON_COLS, h ∉ p.2 := by
    intro h hh p hp
    unfold normalize_headers at hh
    rcases List.mem_map.mp hh with ⟨c, hc, rfl⟩
    rw [canonName_eq_self _ (hal c hc)]
    exact hal c hc p hp
  have hne : ∀ (name : Str), (∃ p ∈ CANON_COLS, name ∈ p.2) →
      colIdx name (normalize_headers f).headers = none := by
    intro name hex
    rcases hex with ⟨p, hp, hmem⟩
    apply colIdx_eq_none
    intro h hh heq
    exact hnh h hh p hp (heq ▸ hmem)
  have hproj : colIdx "项目名".data (normalize_headers f).headers = none :=
    hne "项目名".data (by decide)
  have hbr : colIdx "基于哪条manifest分支".data (normalize_headers f).headers = none :=
    hne "基于哪条manifest分支".data (by decide)
  have hts : colIdx "申请时间".data (normalize_headers f).headers = none :=
    hne "申请时间".data (by decide)
  have hrows : (normalize_headers f).rows = f.rows := rfl
  have hgp : getCol (normalize_headers f) "项目名".data = none := by
    unfold getCol
    rw [hproj]
    rfl
  have hgb : getCol (normalize_headers f) "基于哪条manifest分支".data = none := by
    unfold getCol
    rw [hbr]
    rfl
  have hgt : getCol (normalize_headers f) "申请时间".data = none := by
    unfold getCol
    rw [hts]
    rfl
  refine ⟨?_, ?_, ?_⟩
  · unfold unify_dataframe
    rw [List.length_map, List.length_range, hrows]
  · intro r hr
    unfold unify_dataframe at hr
    rcases List.mem_map.mp hr with ⟨i, _, rfl⟩
    rw [hgp, hgb, hrows]
    constructor
    · exact getD_replicate_none _ _
    · exact getD_replicate_none _ _
  · intro hdl r hr
    have hpds : pick_date_series (normalize_headers f) = none := by
      unfold pick_date_series
      rw [hgt]
      have hfind : (normalize_headers f).headers.find? isDateLike = none := by
        apply List.find?_eq_none.mpr
        intro h hh
        rcases List.mem_map.mp hh with ⟨c, hc, rfl⟩
        rw [canonName_eq_self _ (hal c hc)]
        simp [hdl c hc]
      rw [hfind]
    unfold unify_dataframe at hr
    rw [hpds] at hr
    rcases List.mem_map.mp hr with ⟨i, _, rfl⟩
    rw [hrows]
    exact getD_replicate_noneDT _ _

/-- A two-row frame none of whose headers is a recognized alias (nor
date-like). -/
def frameC2 : Frame :=
  { headers := ["foo".data, "bar".data],
    rows := [[some "r1a".data, some "r1b".data], [some "r2a".data, some "r2b".data]] }

/-- Counterexample to C2 as stated: the monthly variant's `load_and_concat`
drops a parsed file with unrecognized headers outright — its two rows
contribute nothing. -/
theorem c2_counterexample :
    (∀ c ∈ frameC2.headers, ∀ p ∈ CANON_COLS, stripWS c ∉ p.2) ∧
    frameC2.rows.length = 2 ∧
    load_and_concat [some frameC2] = [] := by
  refine ⟨by decide, rfl, by decide⟩

/-- Witness for C2 (amended) on the concrete unrecognized-schema frame. -/
theorem c2_unify_keeps_rows_witness :
    (unify_dataframe parse_nothing pfmt_nothing (normalize_headers frameC2)).length =
      frameC2.rows.length :=
  (c2_unify_keeps_rows parse_nothing pfmt_nothing frameC2 (by decide)).1

/-! ### Early exits and artifact writing -/

/-- C1 (amended): with no CSV files at all the run exits with code 1, and
with no readable non-empty file it exits with code 2 — in both cases
without writing any aggregate artifact; the well-formed zero-row aggregate
tables are written only on the non-exit path where valid rows exist but the
scoped table is empty. -/
theorem c1_early_exit_no_artifacts (auto : Str → Option DT) (pfmt : Str → Str → Option DT)
    (arg : Str) (files : List (Option Frame)) :
    (files = [] → main_run auto pfmt arg files = Outcome.exit1) ∧
    (files ≠ [] → read_frames auto pfmt files = [] →
       main_run auto pfmt arg files = Outcome.exit2) ∧
    (files ≠ [] → read_frames auto pfmt files ≠ [] →
       (filter_scope (merged_rows auto pfmt files) arg).1 = [] →
       main_run auto pfmt arg files = Outcome.wrote [] [] []) ∧
    ((main_run auto pfmt arg files = Outcome.exit1 ∨
        main_run auto pfmt arg files = Outcome.exit2) →
       writesArtifacts (main_run auto pfmt arg files) = false) := by
  refine ⟨?_, ?_, ?_, ?_⟩
  · intro h
    subst h
    rfl
  · intro h1 h2
    unfold main_run
    rw [if_neg (by simp [h1]), if_pos (by simp [h2])]
  · intro h1 h2 h3
    unfold main_run
    rw [if_neg (by simp [h1]), if_neg (by simp [h2])]
    simp only [h3]
    rfl
  · intro h
    rcases h with h | h
    · rw [h]
      rfl
    · rw [h]
      rfl

/-- Counterexample to C1 as stated: with no CSV files the run exits with a
non-zero code having written none of the aggregate artifacts. -/
theorem c1_counterexample :
    main_run parse_nothing pfmt_nothing "ALL".data [] = Outcome.exit1 ∧
    writesArtifacts (main_run parse_nothing pfmt_nothing "ALL".data []) = false :=
  ⟨rfl, rfl⟩

/-- Witness for C1 (amended): one unreadable file exits with code 2. -/
theorem c1_early_exit_no_artifacts_witness :
    main_run parse_nothing pfmt_nothing "ALL".data [none] = Outcome.exit2 :=
  (c1_early_exit_no_artifacts parse_nothing pfmt_nothing "ALL".data [none]).2.1
    (by decide) rfl

/-! ### Source locator characterization -/

/-- C5 (amended): `collect_csvs` returns exactly the files whose name
matches `*.csv` and carry no excluded or dot-initial path segment at any
depth (directories and file name alike), while `find_csv_files` returns
exactly the files with a case-insensitive `.csv` suffix whose immediate
parent directory is not named the skip name — deeper nesting inside an
excluded directory and hidden markers are not considered there. -/
theorem c5_locator_membership (files : List FileEntry) (f : FileEntry) (root skip : Str) :
    (f ∈ collect_csvs files ↔
      f ∈ files ∧ endsWithStr f.name ".csv".data = true ∧
        ∀ seg ∈ f.dirs ++ [f.name],
          seg ∉ EXCLUDE_DIRS ∧ startsWithStr seg ".".data = false) ∧
    (f ∈ find_csv_files root skip files ↔
      f ∈ files ∧ endsWithStr (lowerStr f.name) ".csv".data = true ∧
        f.dirs.getLastD root ≠ skip) := by
  constructor
  · unfold collect_csvs
    rw [List.mem_filter]
    simp only [Bool.and_eq_true, List.all_eq_true, Bool.not_eq_true', List.any_eq_false,
      List.elem_eq_mem, decide_eq_false_iff_not, Bool.not_eq_true, List.mem_append,
      List.mem_singleton]
    constructor
    · rintro ⟨hm, ⟨hcsv, hexc⟩, hdot⟩
      exact ⟨hm, hcsv, fun seg hs => ⟨hexc seg hs, hdot seg hs⟩⟩
    · rintro ⟨hm, hcsv, hseg⟩
      exact ⟨hm, ⟨hcsv, fun seg hs => (hseg seg hs).1⟩, fun seg hs => (hseg seg hs).2⟩
  · unfold find_csv_files
    rw [List.mem_filter]
    simp only [Bool.and_eq_true, Bool.not_eq_true', beq_eq_false_iff_ne]
    constructor
    · rintro ⟨hm, hskip, hcsv⟩
      exact ⟨hm, hcsv, hskip⟩
    · rintro ⟨hm, hcsv, hskip⟩
      exact ⟨hm, hskip, hcsv⟩

/-- The CSV file sitting one level below the excluded `results` directory. -/
def fileC5 : FileEntry := { dirs := ["results".data, "sub".data], name := "a.csv".data }

/-- Counterexample to C5 as stated: a CSV inside a subdirectory of the
excluded directory must be excluded per the contract (as `spec_locator`
renders it), yet `find_csv_files` returns it, because `os.walk` is never
pruned and only the immediate parent directory name is compared. -/
theorem c5_counterexample :
    find_csv_files "repo".data "results".data [fileC5] = [fileC5] ∧
    spec_locator EXCLUDE_DIRS [fileC5] = [] := by
  refine ⟨by decide, by decide⟩

/-- Witness for C5 (amended): a top-level CSV is returned by `collect_csvs`. -/
theorem c5_locator_membership_witness :
    ({ dirs := [], name := "a.csv".data } : FileEntry) ∈
      collect_csvs [({ dirs := [], name := "a.csv".data } : FileEntry)] :=
  ((c5_locator_membership [{ dirs := [], name := "a.csv".data }]
      { dirs := [], name := "a.csv".data } [] []).1).mpr
    ⟨by decide, by decide, by decide⟩

/-! ### The two webhook signatures -/

/-- C9 (amended): both variants base64-encode an HMAC-SHA256 value derived
from the string `"<timestamp>\n<secret>"`, but `sign_headers` keys the HMAC
with the secret and hashes that string as the message, while `feishu_sign`
keys the HMAC with that string and hashes the empty message — and the two
signatures disagree, e.g. at timestamp `1` with secret `x`. -/
theorem c9_signing_conventions :
    (∀ ts secret : Str,
       (sign_headers secret ts).2 =
         b64encode (hmacSha256 (strBytes secret) (strBytes (ts ++ "\n".data ++ secret))) ∧
       feishu_sign secret ts =
         b64encode (hmacSha256 (strBytes (ts ++ "\n".data ++ secret)) [])) ∧
    (sign_headers "x".data "1".data).2 ≠ feishu_sign "x".data "1".data := by
  refine ⟨fun ts secret => ⟨rfl, rfl⟩, by decide⟩

/-- Counterexample to C9 as stated: the two signing functions do not agree
on every timestamp/secret pair. -/
theorem c9_counterexample :
    ¬ (∀ ts secret : Str, (sign_headers secret ts).2 = feishu_sign secret ts) := by
  intro h
  exact absurd (h "1".data "x".data) (by decide)
